import Mathlib

/-!
# Shallow embedding of the memray/pensieve allocation-tracking core

This file embeds `src/bloomberg/pensieve/_pensieve/tracking_api.cpp` in Lean.

Conventions of the embedding:

* The `RecordWriter` is an external collaborator (spec section 1): it is
  modelled as a success oracle `oracle : List Bool` consulted per write
  attempt (`oracle.getD attempt true`) together with the list `log` of the
  records successfully written, in order.
* `PyFrameObject*` handles are opaque `Nat`s; a nullable handle is an
  `Option Nat`.  `PyFrame_GetLineNumber` is an environment parameter
  `lineOf : Nat → Int`.
* The thread-local shadow stack `std::vector<LazilyEmittedFrame>` is a
  `List LazilyEmittedFrame` whose HEAD is the vector's BACK (top of stack);
  the nullable pointer `d_stack` is an `Option` of that list.
* All the per-thread and global mutable state touched by the tracked
  functions is threaded through one structure `St`.
-/

namespace Pensieve

/-- The record kinds the tracker writes (`RecordType` plus each record's
payload fields, from `records.h` usage sites in `tracking_api.cpp`). -/
inductive Record where
  | header (terminal : Bool)
  | memoryMapStart
  | segmentHeader (path : String) (numSegments : Nat) (addr : Nat)
  | segment (vaddr : Nat) (memsz : Nat)
  | frameIndex (frameId : Nat) (function : String) (filename : String) (lineno : Int)
  | framePush (tid : Nat) (frameId : Nat)
  | framePop (tid : Nat) (count : Nat)
  | allocation (tid : Nat) (address : Nat) (size : Nat) (allocator : Nat)
      (lineno : Int) (nativeIndex : Nat)
  | nativeTraceIndex (ip : Nat) (index : Nat)
  | memoryRecord (ms : Nat) (rss : Nat)
  | threadRecord (tid : Nat) (name : String)
  deriving DecidableEq, Repr

/-- A raw Python frame: `RawFrame{function, filename, parent_lineno}`. -/
structure RawFrame where
  function : String
  filename : String
  lineno : Int
  deriving DecidableEq, Repr

/-- Embeds `PythonStackTracker::LazilyEmittedFrame`. -/
structure LazilyEmittedFrame where
  frame : Nat
  raw_frame_record : RawFrame
  emitted : Bool
  deriving DecidableEq, Repr

/-- The per-thread `PythonStackTracker` (`d_stack` is the nullable pointer to
the thread-local vector; `none` models the null pointer). -/
structure PythonStackTracker where
  d_num_pending_pops : Nat
  d_entry_frame : Option Nat
  d_stack : Option (List LazilyEmittedFrame)
  deriving DecidableEq, Repr

/-- All state threaded through the tracked operations: the per-thread stack
tracker `pst`, the per-thread recursion guard `inTracker`
(`RecursionGuard::isActive`), the global `Tracker::d_active` flag, the
`native_traces` configuration bit, the `FrameRegistry` contents (a raw frame's
id is its index in `frames`), the calling thread's id, and the external
writer modelled as a success oracle plus the log of written records. -/
structure St where
  pst : PythonStackTracker
  inTracker : Bool
  active : Bool
  d_unwind_native_frames : Bool
  frames : List RawFrame
  tid : Nat
  oracle : List Bool
  attempts : Nat
  log : List Record
  deriving DecidableEq, Repr

/-- One `RecordWriter::writeRecord` attempt: the oracle decides success; a
successful write appends the record to the log. -/
def writeRecord (s : St) (r : Record) : Bool × St :=
  let ok := s.oracle.getD s.attempts true
  (ok, { s with attempts := s.attempts + 1,
                log := if ok then s.log ++ [r] else s.log })

/-- Embeds `Tracker::deactivate()`. -/
def deactivate (s : St) : St :=
  { s with active := false }

/-- Embeds `Tracker::popFrames(count)`: write `FRAME_POP` records of at most 255
frames each until `count` is exhausted; a failed write deactivates tracking
and stops. -/
def popFrames (s : St) (count : Nat) : Bool × St :=
  if _h : count = 0 then (true, s)
  else
    let to_pop := if count > 255 then 255 else count
    let p := writeRecord s (Record.framePop s.tid to_pop)
    if p.1 then popFrames p.2 (count - to_pop)
    else (false, deactivate p.2)
  termination_by count
  decreasing_by simp_wf; split <;> omega

/-- The run of `FRAME_POP` records `Tracker::popFrames(count)` writes when
every write succeeds. -/
def popRun (tid : Nat) (count : Nat) : List Record :=
  if _h : count = 0 then []
  else
    let to_pop := if count > 255 then 255 else count
    Record.framePop tid to_pop :: popRun tid (count - to_pop)
  termination_by count
  decreasing_by simp_wf; split <;> omega

/-- Modelled from the spec: the `FrameRegistry` (`d_frames.getIndex`, whose
implementation lives outside this translation unit) is an insert-or-get map
from raw frames to compact ids; a frame's id is its index in the insertion
list.  Returns `(frame_id, is_new_frame, updated registry)`. -/
def getIndex (frames : List RawFrame) (f : RawFrame) : Nat × Bool × List RawFrame :=
  match frames.findIdx? (fun g => g == f) with
  | some i => (i, false, frames)
  | none => (frames.length, true, frames ++ [f])

/-- Embeds `Tracker::registerFrame`: intern the frame; on first sight write a
`FRAME_INDEX` record (a failed write deactivates tracking but the id is
returned regardless). -/
def registerFrame (s : St) (frame : RawFrame) : Nat × St :=
  match getIndex s.frames frame with
  | (frame_id, is_new_frame, frames') =>
    let s1 := { s with frames := frames' }
    if is_new_frame then
      let p := writeRecord s1
          (Record.frameIndex frame_id frame.function frame.filename frame.lineno)
      (frame_id, if p.1 then p.2 else deactivate p.2)
    else (frame_id, s1)

/-- Embeds `Tracker::pushFrame`: register the frame, then write a `FRAME_PUSH`
record; a failed write deactivates tracking and reports failure. -/
def pushFrame (s : St) (frame : RawFrame) : Bool × St :=
  match registerFrame s frame with
  | (frame_id, s1) =>
    let p := writeRecord s1 (Record.framePush s1.tid frame_id)
    if p.1 then (true, p.2) else (false, deactivate p.2)

/-- Embeds `PythonStackTracker::reset`: set the entry frame; clear the shadow stack
if (and only if) its container exists. -/
def PythonStackTracker.reset (t : PythonStackTracker) (current_frame : Option Nat) :
    PythonStackTracker :=
  { t with d_entry_frame := current_frame,
           d_stack := t.d_stack.map (fun _ => ([] : List LazilyEmittedFrame)) }

/-- Embeds `PythonStackTracker::emitPendingPops`: ask the tracker to write the pop
run for the pending counter, then zero the counter (the write result is
ignored, as in the source). -/
def emitPendingPops (s : St) : St :=
  let p := popFrames s s.pst.d_num_pending_pops
  { p.2 with pst := { p.2.pst with d_num_pending_pops := 0 } }

/-- Mark a lazily-emitted frame as emitted. -/
def markEmitted (f : LazilyEmittedFrame) : LazilyEmittedFrame :=
  { f with emitted := true }

/-- The emission loop of `PythonStackTracker::emitPendingPushes`, acting on
the frames to emit listed bottom-first: each frame is pushed through
`Tracker::pushFrame` and marked emitted on success; the loop stops at the
first failed push, leaving that frame and the ones above it unmarked. -/
def emitPushLoop (s : St) : List LazilyEmittedFrame → List LazilyEmittedFrame × St
  | [] => ([], s)
  | f :: rest =>
    let p := pushFrame s f.raw_frame_record
    if p.1 then
      let q := emitPushLoop p.2 rest
      (markEmitted f :: q.1, q.2)
    else (f :: rest, p.2)

/-- Embeds `PythonStackTracker::emitPendingPushes`: nothing when the container is
absent; otherwise emit, bottom-up, every frame above the topmost emitted one
(in the top-first list those are exactly the leading unemitted frames). -/
def emitPendingPushes (s : St) : St :=
  match s.pst.d_stack with
  | none => s
  | some stack =>
    let toEmit := stack.takeWhile (fun f => !f.emitted)
    let rest := stack.dropWhile (fun f => !f.emitted)
    let q := emitPushLoop s toEmit.reverse
    { q.2 with pst := { q.2.pst with d_stack := some (q.1.reverse ++ rest) } }

/-- Embeds `PythonStackTracker::getCurrentPythonLineNumber`: the line of the top of
the shadow stack if any, else of the entry frame, else 0. -/
def getCurrentPythonLineNumber (lineOf : Nat → Int) (t : PythonStackTracker) : Int :=
  let the_python_stack : Option Nat :=
    match t.d_stack with
    | some (f :: _) => some f.frame
    | _ => t.d_entry_frame
  match the_python_stack with
  | some fr => lineOf fr
  | none => 0

/-- Embeds `PythonStackTracker::pushPythonFrame`: append an unemitted frame; this
is the only operation that creates the shadow-stack container (the
`StackCreator` thread-local in the source). -/
def PythonStackTracker.pushPythonFrame (t : PythonStackTracker) (frame : Nat)
    (function : String) (filename : String) (parent_lineno : Int) :
    PythonStackTracker :=
  { t with
    d_stack :=
      some (⟨frame, ⟨function, filename, parent_lineno⟩, false⟩ :: t.d_stack.getD []) }

/-- Embeds `PythonStackTracker::popPythonFrame`: with a non-empty stack, count a
pending pop when the removed top was emitted, remove it, and flush pending
pops when the stack drains; with an empty or absent stack, clear the entry
frame. -/
def popPythonFrame (s : St) : St :=
  match s.pst.d_stack with
  | some (top :: rest) =>
    let s1 := { s with pst := { s.pst with
        d_num_pending_pops :=
          s.pst.d_num_pending_pops + (if top.emitted then 1 else 0),
        d_stack := some rest } }
    if rest.isEmpty then emitPendingPops s1 else s1
  | _ => { s with pst := { s.pst with d_entry_frame := none } }

/-- Embeds `PythonStackTracker::resetInChildProcess`: zero the pending-pop counter
and mark every surviving frame unemitted. -/
def PythonStackTracker.resetInChildProcess (t : PythonStackTracker) :
    PythonStackTracker :=
  { t with d_num_pending_pops := 0,
           d_stack := t.d_stack.map (List.map (fun f => { f with emitted := false })) }

/-- The `NATIVE_TRACE_INDEX` emissions the external native-trace trie makes
through its callback (`d_native_trace_tree.getTraceIndex`); the trie itself
is an external collaborator, so the pairs it chooses to emit are a
parameter. -/
def writeNativeEmits (s : St) : List (Nat × Nat) → St
  | [] => s
  | e :: rest => writeNativeEmits (writeRecord s (Record.nativeTraceIndex e.1 e.2)).2 rest

/-- Embeds `Tracker::trackAllocationImpl`.  `fillOk` models `trace.fill(2)`
succeeding, `nativeEmits` and `trace_index` the external trie's behaviour. -/
def trackAllocationImpl (lineOf : Nat → Int) (fillOk : Bool)
    (nativeEmits : List (Nat × Nat)) (trace_index : Nat)
    (s : St) (ptr size func : Nat) : St :=
  if s.inTracker || !s.active then s
  else
    let s1 := { s with inTracker := true }
    let lineno := getCurrentPythonLineNumber lineOf s1.pst
    let s2 := emitPendingPops s1
    let s3 := emitPendingPushes s2
    let native :=
      if s3.d_unwind_native_frames && fillOk then
        (trace_index, writeNativeEmits s3 nativeEmits)
      else (0, s3)
    let p := writeRecord native.2
        (Record.allocation native.2.tid ptr size func lineno native.1)
    let s5 := if p.1 then p.2 else deactivate p.2
    { s5 with inTracker := false }

/-- Embeds `Tracker::trackDeallocationImpl` (same path, no native unwinding, native
index always 0). -/
def trackDeallocationImpl (lineOf : Nat → Int) (s : St) (ptr size func : Nat) : St :=
  if s.inTracker || !s.active then s
  else
    let s1 := { s with inTracker := true }
    let lineno := getCurrentPythonLineNumber lineOf s1.pst
    let s2 := emitPendingPops s1
    let s3 := emitPendingPushes s2
    let p := writeRecord s3 (Record.allocation s3.tid ptr size func lineno 0)
    let s4 := if p.1 then p.2 else deactivate p.2
    { s4 with inTracker := false }

/-- One program header of a loaded object (`dl_phdr_info::dlpi_phdr[i]`). -/
structure Phdr where
  p_type : Nat
  p_vaddr : Nat
  p_memsz : Nat
  deriving DecidableEq, Repr

/-- The ELF `PT_LOAD` segment type tag. -/
def PT_LOAD : Nat := 1

/-- One loaded shared object as `dl_iterate_phdr` reports it. -/
structure ModuleInfo where
  dlpi_name : String
  dlpi_addr : Nat
  dlpi_phdr : List Phdr
  deriving DecidableEq, Repr

/-- The `SEGMENT`-writing loop of `dl_iterate_phdr_callback`: one record per
loadable segment; a failed write deactivates tracking and aborts the
iteration with a nonzero return. -/
def writeSegmentsLoop (s : St) : List (Nat × Nat) → Nat × St
  | [] => (0, s)
  | seg :: rest =>
    let p := writeRecord s (Record.segment seg.1 seg.2)
    if p.1 then writeSegmentsLoop p.2 rest
    else (1, deactivate p.2)

/-- The virtual-DSO path marker the snapshotter skips. -/
def linuxVdso : String := "linux-vdso.so"

/-- Embeds `dl_iterate_phdr_callback`: relabel an empty path with the executable's
path, skip the virtual DSO, then write one `SEGMENT_HEADER` followed by the
`PT_LOAD` segments. -/
def dlIteratePhdrCallback (exe : String) (info : ModuleInfo) (s : St) : Nat × St :=
  let filename := if info.dlpi_name = "" then exe else info.dlpi_name
  if filename.startsWith linuxVdso then (0, s)
  else
    let segments := (info.dlpi_phdr.filter (fun p => p.p_type == PT_LOAD)).map
        (fun p => (p.p_vaddr, p.p_memsz))
    let p := writeRecord s (Record.segmentHeader filename segments.length info.dlpi_addr)
    if p.1 then writeSegmentsLoop p.2 segments
    else (1, deactivate p.2)

/-- Embeds `dl_iterate_phdr`: run the callback over the loaded objects in order,
stopping at the first nonzero return. -/
def dlIteratePhdr (exe : String) (s : St) : List ModuleInfo → St
  | [] => s
  | info :: rest =>
    let p := dlIteratePhdrCallback exe info s
    if p.1 = 0 then dlIteratePhdr exe p.2 rest else p.2

/-- Embeds `Tracker::updateModuleCacheImpl`: nothing unless native traces are
enabled; otherwise write `MEMORY_MAP_START` (a failure deactivates but does
not abort) and iterate the loaded objects. -/
def updateModuleCacheImpl (exe : String) (modules : List ModuleInfo) (s : St) : St :=
  if !s.d_unwind_native_frames then s
  else
    let p := writeRecord s Record.memoryMapStart
    let s1 := if p.1 then p.2 else deactivate p.2
    dlIteratePhdr exe s1 modules

/-- Embeds `Tracker::Tracker`, the record-producing steps: write the non-terminal
header (a failure throws, aborting construction), take the initial module
map snapshot, install the trace hook on the current thread (which seeds the
entry frame via `reset`), then activate.  The hook installation, symbol
patching and background thread write no records. -/
def trackerConstruct (exe : String) (modules : List ModuleInfo)
    (entry : Option Nat) (s : St) : Option St :=
  let p := writeRecord s (Record.header false)
  if !p.1 then none
  else
    let s1 := updateModuleCacheImpl exe modules p.2
    let s2 := { s1 with pst := s1.pst.reset entry }
    some { s2 with active := true }

/-- The event kinds the profile hook distinguishes (`PyTrace_CALL`,
`PyTrace_RETURN`, and everything else). -/
inductive TraceEvent where
  | call
  | ret
  | other
  deriving DecidableEq, Repr

/-- Embeds `PyTraceFunction`: the per-thread profile hook.  `function` and
`filename` are the results of the two `PyUnicode_AsUTF8` decodes (`none` is
a failed decode); the `Int` result is what the hook returns to the
interpreter. -/
def PyTraceFunction (lineOf : Nat → Int) (s : St) (frame : Nat)
    (what : TraceEvent) (function : Option String) (filename : Option String) :
    Int × St :=
  if !s.active then (0, s)
  else
    match what with
    | TraceEvent.call =>
      match function with
      | none => (-1, s)
      | some fn =>
        match filename with
        | none => (-1, s)
        | some fl =>
          let parent_lineno := getCurrentPythonLineNumber lineOf s.pst
          (0, { s with pst := s.pst.pushPythonFrame frame fn fl parent_lineno })
    | TraceEvent.ret => (0, popPythonFrame s)
    | TraceEvent.other => (0, s)

/-- Invariant S1 on a top-first shadow stack: whenever a frame is emitted,
every frame below it (later in the top-first list) is emitted too. -/
def emittedPrefixB : List LazilyEmittedFrame → Bool
  | [] => true
  | f :: rest => (!f.emitted || rest.all (fun g => g.emitted)) && emittedPrefixB rest

/-- Invariant S1 lifted to the nullable container. -/
def stackInvariant (t : PythonStackTracker) : Bool :=
  match t.d_stack with
  | none => true
  | some l => emittedPrefixB l

/-- Record-kind discriminators used to state the stream-shape claims. -/
def popRec : Record → Bool
  | Record.framePop _ _ => true
  | _ => false

/-- Matches `FRAME_PUSH` or the `FRAME_INDEX` its registration may interleave. -/
def pushRec : Record → Bool
  | Record.framePush _ _ => true
  | Record.frameIndex _ _ _ _ => true
  | _ => false

/-- Matches `NATIVE_TRACE_INDEX`. -/
def nativeRec : Record → Bool
  | Record.nativeTraceIndex _ _ => true
  | _ => false

/-- Matches `ALLOCATION`. -/
def allocRec : Record → Bool
  | Record.allocation _ _ _ _ _ _ => true
  | _ => false

/-- Matches `SEGMENT_HEADER` or `SEGMENT`. -/
def segRec : Record → Bool
  | Record.segmentHeader _ _ _ => true
  | Record.segment _ _ => true
  | _ => false

/-- The number of frames a `FRAME_POP` record pops (0 for other kinds). -/
def popCount : Record → Nat
  | Record.framePop _ c => c
  | _ => 0

/-- Total frames popped by a run of records. -/
def sumPops (l : List Record) : Nat :=
  (l.map popCount).sum

/-- A concrete line-number environment for the witness states. -/
def egLineOf : Nat → Int := fun n => (n : Int)

/-- An emitted frame used by the witness states. -/
def egFrameA : LazilyEmittedFrame := ⟨5, ⟨"f", "mod.py", 1⟩, true⟩

/-- An unemitted frame used by the witness states. -/
def egFrameB : LazilyEmittedFrame := ⟨6, ⟨"g", "mod.py", 2⟩, false⟩

/-- A per-thread tracker with an unemitted frame on top of an emitted one. -/
def egTracker : PythonStackTracker := ⟨2, some 9, some [egFrameB, egFrameA]⟩

/-- A state whose writer fails on the second write attempt. -/
def egStFail : St := ⟨egTracker, false, true, false, [], 3, [true, false], 0, []⟩

/-- A deactivated state for the C4 witness. -/
def egStInactive : St := ⟨egTracker, false, false, false, [], 3, [], 0, []⟩

/-- A function name for the C9 witness. -/
def egFn : String := "f"

/-- A file name for the C9 witness. -/
def egFl : String := "x"

/-- An active state for the C9 witness. -/
def egStActive : St := ⟨egTracker, false, true, false, [], 3, [], 0, []⟩

/-- A state whose top frame is emitted, over another frame. -/
def egStPop : St :=
  ⟨⟨2, some 9, some [egFrameA, egFrameB]⟩, false, true, false, [], 3, [], 0, []⟩

/-- A state with 600 pending pops and no shadow stack. -/
def egStPops : St := ⟨⟨600, none, none⟩, false, true, false, [], 3, [], 0, []⟩

/-- A state with 2 pending pops, an entry frame and a one-frame stack. -/
def egStReset : St :=
  ⟨⟨2, some 9, some [egFrameA]⟩, false, true, false, [], 3, [], 0, []⟩

/-- The process executable path for the C1 inputs. -/
def egExe : String := "a.out"

/-- A one-object module list for the C1 input. -/
def cexModules : List ModuleInfo := [⟨"libfoo.so", 4096, [⟨1, 0, 100⟩]⟩]

/-- An initial state configured WITHOUT native traces. -/
def cexStNoNative : St := ⟨⟨0, none, none⟩, false, false, false, [], 7, [], 0, []⟩

/-- The state after constructing a tracker with `native_traces = false`. -/
def cexConstructed : St :=
  (trackerConstruct egExe cexModules none cexStNoNative).getD cexStNoNative

/-- The output stream after that construction and a first allocation. -/
def cexStream : List Record :=
  (trackAllocationImpl egLineOf false [] 0 cexConstructed 170 16 0).log

/-- The C1 input with native traces enabled. -/
def cexStNative : St := ⟨⟨0, none, none⟩, false, false, true, [], 7, [], 0, []⟩

lemma writeRecord_fst (s : St) (r : Record) :
    (writeRecord s r).1 = s.oracle.getD s.attempts true := rfl

lemma writeRecord_log (s : St) (r : Record) :
    ((writeRecord s r).2).log =
      if (writeRecord s r).1 then s.log ++ [r] else s.log := rfl

lemma writeRecord_log_true (s : St) (r : Record) (h : (writeRecord s r).1 = true) :
    ((writeRecord s r).2).log = s.log ++ [r] := by
  simp [writeRecord_log, h]

lemma writeRecord_log_false (s : St) (r : Record) (h : (writeRecord s r).1 = false) :
    ((writeRecord s r).2).log = s.log := by
  simp [writeRecord_log, h]

lemma writeRecord_pst (s : St) (r : Record) : ((writeRecord s r).2).pst = s.pst := rfl

lemma writeRecord_tid (s : St) (r : Record) : ((writeRecord s r).2).tid = s.tid := rfl

lemma writeRecord_oracle (s : St) (r : Record) :
    ((writeRecord s r).2).oracle = s.oracle := rfl

lemma deactivate_log (s : St) : (deactivate s).log = s.log := rfl

lemma deactivate_pst (s : St) : (deactivate s).pst = s.pst := rfl

/-- The function `popFrames` touches only the writer state and the active flag. -/
lemma popFrames_frame (count : Nat) : ∀ s : St,
    ((popFrames s count).2).pst = s.pst ∧
    ((popFrames s count).2).inTracker = s.inTracker ∧
    ((popFrames s count).2).tid = s.tid ∧
    ((popFrames s count).2).oracle = s.oracle ∧
    ((popFrames s count).2).frames = s.frames ∧
    ((popFrames s count).2).d_unwind_native_frames = s.d_unwind_native_frames := by
  induction count using Nat.strong_induction_on with
  | _ count ih =>
    intro s
    rw [popFrames]
    split
    · simp
    · rename_i h0
      simp only [writeRecord, deactivate]
      split
      · rename_i hok
        have hlt : count - (if count > 255 then 255 else count) < count := by
          split <;> omega
        exact ih _ hlt _
      · simp

/-- With an always-succeeding writer, `popFrames` writes exactly `popRun`. -/
lemma popFrames_ok (count : Nat) : ∀ s : St, s.oracle = [] →
    popFrames s count =
      (true, { s with attempts := s.attempts + (popRun s.tid count).length,
                      log := s.log ++ popRun s.tid count }) := by
  induction count using Nat.strong_induction_on with
  | _ count ih =>
    intro s h
    rw [popFrames, popRun]
    split
    · simp
    · rename_i h0
      have hlt : count - (if count > 255 then 255 else count) < count := by
        split <;> omega
      simp only [writeRecord, h, List.getD_nil, if_true]
      rw [ih _ hlt _ (by simp [h])]
      simp [Nat.add_assoc, Nat.add_comm]

/-- Every record of a pop run is a `FRAME_POP` of at most 255 frames. -/
lemma popRun_mem (count : Nat) : ∀ tid r, r ∈ popRun tid count →
    popRec r = true ∧ popCount r ≤ 255 := by
  induction count using Nat.strong_induction_on with
  | _ count ih =>
    intro tid r hr
    rw [popRun] at hr
    split at hr
    · simp at hr
    · rename_i h0
      have hlt : count - (if count > 255 then 255 else count) < count := by
        split <;> omega
      rcases List.mem_cons.mp hr with h1 | h1
      · subst h1
        refine ⟨rfl, ?_⟩
        simp only [popCount]
        split <;> omega
      · exact ih _ hlt _ _ h1

/-- A pop run totals exactly the requested count. -/
lemma popRun_sum (count : Nat) : ∀ tid, sumPops (popRun tid count) = count := by
  induction count using Nat.strong_induction_on with
  | _ count ih =>
    intro tid
    rw [popRun]
    split
    · rename_i h0
      simp [sumPops, h0]
    · rename_i h0
      have hlt : count - (if count > 255 then 255 else count) < count := by
        split <;> omega
      simp only [sumPops, List.map_cons, List.sum_cons]
      have := ih _ hlt tid
      simp only [sumPops] at this
      rw [this]
      simp only [popCount]
      split <;> omega

lemma popRun_zero (tid : Nat) : popRun tid 0 = [] := by
  rw [popRun]
  simp

/-- Whatever the writer does, `popFrames` appends only `FRAME_POP` records. -/
lemma popFrames_logDelta (count : Nat) : ∀ s : St, ∃ Δ,
    ((popFrames s count).2).log = s.log ++ Δ ∧ ∀ r ∈ Δ, popRec r = true := by
  induction count using Nat.strong_induction_on with
  | _ count ih =>
    intro s
    rw [popFrames]
    split
    · exact ⟨[], by simp, by simp⟩
    · rename_i h0
      dsimp only
      set to_pop := (if count > 255 then 255 else count) with hto
      have hlt : count - to_pop < count := by
        rw [hto]; split <;> omega
      split
      · rename_i hok
        obtain ⟨Δ, hΔ, hall⟩ := ih _ hlt
          ((writeRecord s (Record.framePop s.tid to_pop)).2)
        refine ⟨Record.framePop s.tid to_pop :: Δ, ?_, ?_⟩
        · rw [hΔ, writeRecord_log_true _ _ hok]
          simp
        · intro r hr
          rcases List.mem_cons.mp hr with h1 | h1
          · subst h1; rfl
          · exact hall r h1
      · rename_i hok
        refine ⟨[], ?_, by simp⟩
        rw [deactivate_log, writeRecord_log_false _ _ (by simpa using hok)]
        simp

lemma emitPendingPops_logDelta (s : St) : ∃ Δ,
    (emitPendingPops s).log = s.log ++ Δ ∧ ∀ r ∈ Δ, popRec r = true := by
  unfold emitPendingPops
  exact popFrames_logDelta _ s

lemma emitPendingPops_ok (s : St) (h : s.oracle = []) :
    emitPendingPops s =
      { s with pst := { s.pst with d_num_pending_pops := 0 },
               attempts := s.attempts + (popRun s.tid s.pst.d_num_pending_pops).length,
               log := s.log ++ popRun s.tid s.pst.d_num_pending_pops } := by
  unfold emitPendingPops
  rw [popFrames_ok _ _ h]

lemma registerFrame_logDelta (s : St) (f : RawFrame) : ∃ Δ,
    ((registerFrame s f).2).log = s.log ++ Δ ∧ ∀ r ∈ Δ, pushRec r = true := by
  unfold registerFrame
  split
  rename_i frame_id is_new frames' heq
  dsimp only
  split
  · split
    · rename_i hok
      refine ⟨[Record.frameIndex frame_id f.function f.filename f.lineno], ?_, ?_⟩
      · exact writeRecord_log_true _ _ hok
      · intro r hr
        simp at hr
        subst hr
        rfl
    · rename_i hok
      refine ⟨[], ?_, by simp⟩
      rw [deactivate_log, writeRecord_log_false _ _ (by simpa using hok)]
      simp
  · exact ⟨[], by simp, by simp⟩

lemma registerFrame_tid (s : St) (f : RawFrame) :
    ((registerFrame s f).2).tid = s.tid := by
  unfold registerFrame
  split
  dsimp only
  split
  · split <;> rfl
  · rfl

lemma pushFrame_logDelta (s : St) (f : RawFrame) : ∃ Δ,
    ((pushFrame s f).2).log = s.log ++ Δ ∧ ∀ r ∈ Δ, pushRec r = true := by
  unfold pushFrame
  obtain ⟨Δ1, hΔ1, hall1⟩ := registerFrame_logDelta s f
  split
  rename_i frame_id s1 heq
  have hs1 : s1.log = s.log ++ Δ1 := by
    rw [← hΔ1, heq]
  dsimp only
  split
  · rename_i hok
    refine ⟨Δ1 ++ [Record.framePush s1.tid frame_id], ?_, ?_⟩
    · rw [writeRecord_log_true _ _ hok, hs1, List.append_assoc]
    · intro r hr
      rcases List.mem_append.mp hr with h1 | h1
      · exact hall1 r h1
      · simp at h1; subst h1; rfl
  · rename_i hok
    refine ⟨Δ1, ?_, hall1⟩
    rw [deactivate_log, writeRecord_log_false _ _ (by simpa using hok), hs1]

lemma emitPushLoop_logDelta : ∀ (l : List LazilyEmittedFrame) (s : St), ∃ Δ,
    ((emitPushLoop s l).2).log = s.log ++ Δ ∧ ∀ r ∈ Δ, pushRec r = true := by
  intro l
  induction l with
  | nil => exact fun s => ⟨[], by simp [emitPushLoop], by simp⟩
  | cons f rest ih =>
    intro s
    unfold emitPushLoop
    dsimp only
    obtain ⟨Δ1, hΔ1, hall1⟩ := pushFrame_logDelta s f.raw_frame_record
    split
    · rename_i hok
      obtain ⟨Δ2, hΔ2, hall2⟩ := ih (pushFrame s f.raw_frame_record).2
      refine ⟨Δ1 ++ Δ2, ?_, ?_⟩
      · rw [hΔ2, hΔ1, List.append_assoc]
      · intro r hr
        rcases List.mem_append.mp hr with h1 | h1
        · exact hall1 r h1
        · exact hall2 r h1
    · exact ⟨Δ1, hΔ1, hall1⟩

lemma emitPendingPushes_logDelta (s : St) : ∃ Δ,
    (emitPendingPushes s).log = s.log ++ Δ ∧ ∀ r ∈ Δ, pushRec r = true := by
  unfold emitPendingPushes
  split
  · exact ⟨[], by simp, by simp⟩
  · exact emitPushLoop_logDelta _ s

lemma writeNativeEmits_logDelta : ∀ (l : List (Nat × Nat)) (s : St), ∃ Δ,
    (writeNativeEmits s l).log = s.log ++ Δ ∧ ∀ r ∈ Δ, nativeRec r = true := by
  intro l
  induction l with
  | nil => exact fun s => ⟨[], by simp [writeNativeEmits], by simp⟩
  | cons e rest ih =>
    intro s
    unfold writeNativeEmits
    obtain ⟨Δ2, hΔ2, hall2⟩ := ih (writeRecord s (Record.nativeTraceIndex e.1 e.2)).2
    rcases Bool.eq_false_or_eq_true (writeRecord s (Record.nativeTraceIndex e.1 e.2)).1
      with hok | hok
    · refine ⟨Record.nativeTraceIndex e.1 e.2 :: Δ2, ?_, ?_⟩
      · rw [hΔ2, writeRecord_log_true _ _ hok]
        simp
      · intro r hr
        rcases List.mem_cons.mp hr with h1 | h1
        · subst h1; rfl
        · exact hall2 r h1
    · refine ⟨Δ2, ?_, hall2⟩
      rw [hΔ2, writeRecord_log_false _ _ hok]

lemma emittedPrefixB_of_all (l : List LazilyEmittedFrame)
    (h : ∀ f ∈ l, f.emitted = true) : emittedPrefixB l = true := by
  induction l with
  | nil => rfl
  | cons f rest ih =>
    simp only [emittedPrefixB, Bool.and_eq_true, Bool.or_eq_true]
    refine ⟨Or.inr ?_, ih (fun g hg => h g (List.mem_cons_of_mem _ hg))⟩
    simp only [List.all_eq_true]
    exact fun g hg => h g (List.mem_cons_of_mem _ hg)

lemma emittedPrefixB_append (u e : List LazilyEmittedFrame)
    (hu : ∀ f ∈ u, f.emitted = false) (he : ∀ f ∈ e, f.emitted = true) :
    emittedPrefixB (u ++ e) = true := by
  induction u with
  | nil => simpa using emittedPrefixB_of_all e he
  | cons f rest ih =>
    simp only [List.cons_append, emittedPrefixB, Bool.and_eq_true, Bool.or_eq_true]
    constructor
    · exact Or.inl (by simp [hu f (List.mem_cons_self f rest)])
    · exact ih (fun g hg => hu g (List.mem_cons_of_mem _ hg))

lemma emittedPrefixB_tail (f : LazilyEmittedFrame) (l : List LazilyEmittedFrame)
    (h : emittedPrefixB (f :: l) = true) : emittedPrefixB l = true := by
  simp only [emittedPrefixB, Bool.and_eq_true] at h
  exact h.2

lemma dropWhile_emitted (l : List LazilyEmittedFrame)
    (h : emittedPrefixB l = true) :
    ∀ f ∈ l.dropWhile (fun f => !f.emitted), f.emitted = true := by
  induction l with
  | nil => simp
  | cons f rest ih =>
    intro g hg
    simp only [emittedPrefixB, Bool.and_eq_true, Bool.or_eq_true] at h
    rw [List.dropWhile_cons] at hg
    by_cases hf : f.emitted
    · simp only [hf, Bool.not_true, Bool.false_eq_true, if_false] at hg
      rcases List.mem_cons.mp hg with h1 | h1
      · subst h1; exact hf
      · rcases h.1 with h2 | h2
        · simp [hf] at h2
        · simp only [List.all_eq_true] at h2
          exact h2 g h1
    · simp only [Bool.not_eq_true] at hf
      simp only [hf, Bool.not_false, if_true] at hg
      exact ih h.2 g hg

lemma emitPushLoop_split : ∀ (l : List LazilyEmittedFrame) (s : St),
    ∃ n, (emitPushLoop s l).1 = (l.take n).map markEmitted ++ l.drop n := by
  intro l
  induction l with
  | nil => exact fun s => ⟨0, by simp [emitPushLoop]⟩
  | cons f rest ih =>
    intro s
    unfold emitPushLoop
    dsimp only
    split
    · obtain ⟨n, hn⟩ := ih (pushFrame s f.raw_frame_record).2
      exact ⟨n + 1, by simp [hn]⟩
    · exact ⟨0, by simp⟩

lemma stackInvariant_emitPendingPushes (s : St)
    (h : stackInvariant s.pst = true) :
    stackInvariant (emitPendingPushes s).pst = true := by
  unfold emitPendingPushes
  split
  · exact h
  · rename_i stack hst
    simp only [stackInvariant]
    obtain ⟨n, hn⟩ :=
      emitPushLoop_split (stack.takeWhile fun f => !f.emitted).reverse s
    rw [hn, List.reverse_append]
    have hstack : emittedPrefixB stack = true := by
      simpa [stackInvariant, hst] using h
    rw [List.append_assoc]
    apply emittedPrefixB_append
    · intro f hf
      have hf2 : f ∈ (stack.takeWhile fun f => !f.emitted) := by
        have := List.mem_reverse.mp hf
        have := List.mem_of_mem_drop this
        exact List.mem_reverse.mp this
      have := List.mem_takeWhile_imp hf2
      simpa using this
    · intro f hf
      rcases List.mem_append.mp hf with h1 | h1
      · have := List.mem_reverse.mp h1
        obtain ⟨g, _, hg2⟩ := List.mem_map.mp this
        rw [← hg2]
        rfl
      · exact dropWhile_emitted stack hstack f h1

lemma stackInvariant_stack_eq (t1 t2 : PythonStackTracker)
    (h : t1.d_stack = t2.d_stack) : stackInvariant t1 = stackInvariant t2 := by
  unfold stackInvariant
  rw [h]

lemma emitPendingPops_pst (s : St) :
    (emitPendingPops s).pst = { s.pst with d_num_pending_pops := 0 } := by
  unfold emitPendingPops
  dsimp only
  rw [(popFrames_frame s.pst.d_num_pending_pops s).1]

lemma stackInvariant_push (t : PythonStackTracker) (frame : Nat) (fn fl : String)
    (ln : Int) (h : stackInvariant t = true) :
    stackInvariant (t.pushPythonFrame frame fn fl ln) = true := by
  unfold PythonStackTracker.pushPythonFrame
  simp only [stackInvariant, emittedPrefixB, Bool.and_eq_true, Bool.or_eq_true]
  refine ⟨Or.inl rfl, ?_⟩
  cases hst : t.d_stack with
  | none => rfl
  | some l =>
    simpa [stackInvariant, hst] using h

lemma stackInvariant_pop (s : St) (h : stackInvariant s.pst = true) :
    stackInvariant (popPythonFrame s).pst = true := by
  unfold popPythonFrame
  split
  · rename_i top rest hst
    have htail : emittedPrefixB rest = true := by
      have := h
      unfold stackInvariant at this
      rw [hst] at this
      exact emittedPrefixB_tail _ _ this
    dsimp only
    split
    · rw [emitPendingPops_pst]
      simpa [stackInvariant] using htail
    · simpa [stackInvariant] using htail
  · rename_i hst
    have : ({ s with pst := { s.pst with d_entry_frame := none } } : St).pst.d_stack
        = s.pst.d_stack := rfl
    rw [stackInvariant_stack_eq _ _ this]
    exact h

lemma stackInvariant_reset (t : PythonStackTracker) (cf : Option Nat) :
    stackInvariant (t.reset cf) = true := by
  unfold PythonStackTracker.reset stackInvariant
  cases t.d_stack <;> simp [emittedPrefixB]

lemma stackInvariant_resetInChild (t : PythonStackTracker) :
    stackInvariant t.resetInChildProcess = true := by
  unfold PythonStackTracker.resetInChildProcess stackInvariant
  cases t.d_stack with
  | none => rfl
  | some l =>
    simp only [Option.map_some]
    have := emittedPrefixB_append (l.map (fun f => { f with emitted := false })) []
      (by intro f hf
          obtain ⟨g, _, hg⟩ := List.mem_map.mp hf
          rw [← hg])
      (by simp)
    simpa using this

lemma emitPendingPops_log_ok (s : St) (h : s.oracle = []) :
    (emitPendingPops s).log = s.log ++ popRun s.tid s.pst.d_num_pending_pops := by
  rw [emitPendingPops_ok s h]

lemma writeRecord_orDeactivate_log (s : St) (r : Record) :
    ∃ Δ, (if (writeRecord s r).1 then (writeRecord s r).2
          else deactivate (writeRecord s r).2).log = s.log ++ Δ ∧
      ∀ x ∈ Δ, x = r := by
  rcases Bool.eq_false_or_eq_true (writeRecord s r).1 with hw | hw
  · refine ⟨[r], ?_, by simp⟩
    rw [if_pos hw]
    exact writeRecord_log_true _ _ hw
  · refine ⟨[], ?_, by simp⟩
    rw [if_neg (by simp [hw])]
    rw [deactivate_log]
    rw [writeRecord_log_false _ _ hw]
    simp

lemma writeSegmentsLoop_logDelta : ∀ (segs : List (Nat × Nat)) (s : St), ∃ Δ,
    ((writeSegmentsLoop s segs).2).log = s.log ++ Δ ∧ ∀ r ∈ Δ, segRec r = true := by
  intro segs
  induction segs with
  | nil => exact fun s => ⟨[], by simp [writeSegmentsLoop], by simp⟩
  | cons seg rest ih =>
    intro s
    unfold writeSegmentsLoop
    dsimp only
    split
    · rename_i hok
      obtain ⟨Δ, hΔ, ha⟩ := ih (writeRecord s (Record.segment seg.1 seg.2)).2
      refine ⟨Record.segment seg.1 seg.2 :: Δ, ?_, ?_⟩
      · rw [hΔ, writeRecord_log_true _ _ hok]
        simp
      · intro r hr
        rcases List.mem_cons.mp hr with hr1 | hr1
        · subst hr1; rfl
        · exact ha r hr1
    · rename_i hok
      refine ⟨[], ?_, by simp⟩
      rw [deactivate_log, writeRecord_log_false _ _ (by simpa using hok)]
      simp

lemma dlIteratePhdrCallback_logDelta (exe : String) (info : ModuleInfo) (s : St) :
    ∃ Δ, ((dlIteratePhdrCallback exe info s).2).log = s.log ++ Δ ∧
      ∀ r ∈ Δ, segRec r = true := by
  unfold dlIteratePhdrCallback
  dsimp only
  set filename := (if info.dlpi_name = "" then exe else info.dlpi_name) with hf
  set segs := ((info.dlpi_phdr.filter (fun p => p.p_type == PT_LOAD)).map
      (fun p => (p.p_vaddr, p.p_memsz))) with hsegs
  by_cases hv : filename.startsWith linuxVdso = true
  · rw [if_pos hv]
    exact ⟨[], by simp, by simp⟩
  · rw [if_neg hv]
    rcases Bool.eq_false_or_eq_true
      (writeRecord s (Record.segmentHeader filename segs.length info.dlpi_addr)).1
      with hok | hok
    · rw [if_pos hok]
      obtain ⟨Δ, hΔ, ha⟩ := writeSegmentsLoop_logDelta segs
        (writeRecord s (Record.segmentHeader filename segs.length info.dlpi_addr)).2
      refine ⟨Record.segmentHeader filename segs.length info.dlpi_addr :: Δ, ?_, ?_⟩
      · rw [hΔ, writeRecord_log_true _ _ hok]
        simp
      · intro r hr
        rcases List.mem_cons.mp hr with hr1 | hr1
        · subst hr1; rfl
        · exact ha r hr1
    · rw [if_neg (by simp [hok])]
      dsimp only
      refine ⟨[], ?_, by simp⟩
      rw [deactivate_log, writeRecord_log_false _ _ hok]
      simp

lemma dlIteratePhdr_logDelta : ∀ (modules : List ModuleInfo) (exe : String) (s : St),
    ∃ Δ, (dlIteratePhdr exe s modules).log = s.log ++ Δ ∧
      ∀ r ∈ Δ, segRec r = true := by
  intro modules
  induction modules with
  | nil =>
    intro exe s
    refine ⟨[], ?_, by simp⟩
    show (dlIteratePhdr exe s []).log = s.log ++ []
    rw [List.append_nil]
    rfl
  | cons info rest ih =>
    intro exe s
    have hstep : dlIteratePhdr exe s (info :: rest) =
        (if (dlIteratePhdrCallback exe info s).1 = 0
         then dlIteratePhdr exe (dlIteratePhdrCallback exe info s).2 rest
         else (dlIteratePhdrCallback exe info s).2) := rfl
    rw [hstep]
    obtain ⟨Δ1, hΔ1, ha1⟩ := dlIteratePhdrCallback_logDelta exe info s
    split
    · obtain ⟨Δ2, hΔ2, ha2⟩ := ih exe (dlIteratePhdrCallback exe info s).2
      refine ⟨Δ1 ++ Δ2, ?_, ?_⟩
      · rw [hΔ2, hΔ1, List.append_assoc]
      · intro r hr
        rcases List.mem_append.mp hr with hr1 | hr1
        · exact ha1 r hr1
        · exact ha2 r hr1
    · exact ⟨Δ1, hΔ1, ha1⟩

lemma popFrames_zero (s : St) : popFrames s 0 = (true, s) := by
  rw [popFrames]
  simp

lemma emitPendingPops_zero (s : St) (h : s.pst.d_num_pending_pops = 0) :
    emitPendingPops s = { s with pst := { s.pst with d_num_pending_pops := 0 } } := by
  unfold emitPendingPops
  rw [h, popFrames_zero]

/-- C3: invariant S1 (the emitted flags form a prefix of the shadow stack)
is preserved by push, pop, flush-pending-pushes (for any writer behaviour,
including a push-record write failing partway), reset, and
reset-in-child. -/
theorem claimC3_stack_invariant_preserved (s : St) (t : PythonStackTracker)
    (cf : Option Nat) (frame : Nat) (fn fl : String) (ln : Int)
    (hs : stackInvariant s.pst = true) (ht : stackInvariant t = true) :
    stackInvariant (t.pushPythonFrame frame fn fl ln) = true ∧
    stackInvariant (popPythonFrame s).pst = true ∧
    stackInvariant (emitPendingPushes s).pst = true ∧
    stackInvariant (t.reset cf) = true ∧
    stackInvariant t.resetInChildProcess = true :=
  ⟨stackInvariant_push t frame fn fl ln ht,
   stackInvariant_pop s hs,
   stackInvariant_emitPendingPushes s hs,
   stackInvariant_reset t cf,
   stackInvariant_resetInChild t⟩

/-- Witness for C3 at a state whose writer fails partway through the
pending-push flush. -/
theorem claimC3_stack_invariant_preserved_witness :
    stackInvariant (egTracker.pushPythonFrame 7 "h" "mod.py" 4) = true ∧
    stackInvariant (popPythonFrame egStFail).pst = true ∧
    stackInvariant (emitPendingPushes egStFail).pst = true ∧
    stackInvariant (egTracker.reset (some 1)) = true ∧
    stackInvariant egTracker.resetInChildProcess = true :=
  claimC3_stack_invariant_preserved egStFail egTracker (some 1) 7 "h" "mod.py" 4
    (by decide) (by decide)

/-- C4: with the recursion guard set or the tracker inactive, both
allocation entry points return the state untouched: no record is written
and no tracker state changes. -/
theorem claimC4_gates_return_immediately (lineOf : Nat → Int) (fillOk : Bool)
    (emits : List (Nat × Nat)) (tix : Nat) (s : St) (ptr size func : Nat)
    (h : s.inTracker = true ∨ s.active = false) :
    trackAllocationImpl lineOf fillOk emits tix s ptr size func = s ∧
    trackDeallocationImpl lineOf s ptr size func = s := by
  have hc : (s.inTracker || !s.active) = true := by
    rcases h with h | h <;> simp [h]
  constructor
  · unfold trackAllocationImpl
    simp [hc]
  · unfold trackDeallocationImpl
    simp [hc]

/-- Witness for C4 at a deactivated state. -/
theorem claimC4_gates_return_immediately_witness :
    trackAllocationImpl egLineOf false [] 0 egStInactive 1 2 3 = egStInactive ∧
    trackDeallocationImpl egLineOf egStInactive 1 2 3 = egStInactive :=
  claimC4_gates_return_immediately egLineOf false [] 0 egStInactive 1 2 3 (Or.inr rfl)

/-- C7: the current line number comes from the top of the shadow stack if
the stack is non-empty, else from the entry frame if set, else it is 0. -/
theorem claimC7_current_line (lineOf : Nat → Int) (t : PythonStackTracker) :
    (∀ f rest, t.d_stack = some (f :: rest) →
      getCurrentPythonLineNumber lineOf t = lineOf f.frame) ∧
    ((t.d_stack = none ∨ t.d_stack = some []) →
      (∀ e, t.d_entry_frame = some e →
        getCurrentPythonLineNumber lineOf t = lineOf e) ∧
      (t.d_entry_frame = none → getCurrentPythonLineNumber lineOf t = 0)) := by
  constructor
  · intro f rest hst
    unfold getCurrentPythonLineNumber
    rw [hst]
  · intro hcase
    constructor
    · intro e he
      unfold getCurrentPythonLineNumber
      rcases hcase with h1 | h1 <;> rw [h1, he]
    · intro he
      unfold getCurrentPythonLineNumber
      rcases hcase with h1 | h1 <;> rw [h1, he]

/-- Witness for C7: top-of-stack line with a non-empty stack, entry-frame
line with an absent container. -/
theorem claimC7_current_line_witness :
    getCurrentPythonLineNumber egLineOf egTracker = egLineOf 6 ∧
    getCurrentPythonLineNumber egLineOf ⟨0, some 9, none⟩ = egLineOf 9 ∧
    getCurrentPythonLineNumber egLineOf ⟨0, none, none⟩ = 0 :=
  ⟨(claimC7_current_line egLineOf egTracker).1 egFrameB [egFrameA] rfl,
   ((claimC7_current_line egLineOf ⟨0, some 9, none⟩).2 (Or.inl rfl)).1 9 rfl,
   ((claimC7_current_line egLineOf ⟨0, none, none⟩).2 (Or.inl rfl)).2 rfl⟩

/-- C8: when the shadow-stack container pointer is null, every operation
other than push leaves it null and behaves exactly as on an empty stack;
push is the one operation that creates the container. -/
theorem claimC8_null_container (s : St) (t : PythonStackTracker) (cf : Option Nat)
    (lineOf : Nat → Int) (frame : Nat) (fn fl : String) (ln : Int)
    (ht : t.d_stack = none) (hs : s.pst.d_stack = none) :
    t.reset cf = { t with d_entry_frame := cf } ∧
    popPythonFrame s = { s with pst := { s.pst with d_entry_frame := none } } ∧
    emitPendingPushes s = s ∧
    getCurrentPythonLineNumber lineOf t =
      (match t.d_entry_frame with | some e => lineOf e | none => 0) ∧
    t.resetInChildProcess = { t with d_num_pending_pops := 0 } ∧
    (t.pushPythonFrame frame fn fl ln).d_stack = some [⟨frame, ⟨fn, fl, ln⟩, false⟩] := by
  obtain ⟨pc, ef, stk⟩ := t
  obtain ⟨⟨pc2, ef2, stk2⟩, it, ac, un, fr, td, orc, att, lg⟩ := s
  simp only at ht hs
  subst ht
  subst hs
  exact ⟨rfl, rfl, rfl, rfl, rfl, rfl⟩

/-- Witness for C8 at a thread state with no container. -/
theorem claimC8_null_container_witness :
    PythonStackTracker.reset ⟨4, some 9, none⟩ (some 2) = ⟨4, some 2, none⟩ ∧
    popPythonFrame ⟨⟨4, some 9, none⟩, false, true, false, [], 3, [], 0, []⟩ =
      ⟨⟨4, none, none⟩, false, true, false, [], 3, [], 0, []⟩ ∧
    emitPendingPushes ⟨⟨4, some 9, none⟩, false, true, false, [], 3, [], 0, []⟩ =
      ⟨⟨4, some 9, none⟩, false, true, false, [], 3, [], 0, []⟩ ∧
    getCurrentPythonLineNumber egLineOf ⟨4, some 9, none⟩ =
      (match (some 9 : Option Nat) with | some e => egLineOf e | none => 0) ∧
    PythonStackTracker.resetInChildProcess ⟨4, some 9, none⟩ = ⟨0, some 9, none⟩ ∧
    (PythonStackTracker.pushPythonFrame ⟨4, some 9, none⟩ 7 "h" "mod.py" 4).d_stack =
      some [⟨7, ⟨"h", "mod.py", 4⟩, false⟩] :=
  claimC8_null_container ⟨⟨4, some 9, none⟩, false, true, false, [], 3, [], 0, []⟩
    ⟨4, some 9, none⟩ (some 2) egLineOf 7 "h" "mod.py" 4 rfl rfl

/-- C9: on a call event with tracing active, a failed decode of either name
makes the hook return -1 with no frame pushed; with both decodes succeeding
it pushes a shadow frame and returns 0. -/
theorem claimC9_call_decode (lineOf : Nat → Int) (s : St) (frame : Nat)
    (function filename : Option String) (h : s.active = true) :
    ((function = none ∨ filename = none) →
      PyTraceFunction lineOf s frame TraceEvent.call function filename = (-1, s)) ∧
    (∀ fn fl, function = some fn → filename = some fl →
      PyTraceFunction lineOf s frame TraceEvent.call function filename =
        (0, { s with pst := (s.pst.pushPythonFrame frame fn fl
                (getCurrentPythonLineNumber lineOf s.pst)) })) := by
  constructor
  · intro hc
    rcases hc with h1 | h1
    · subst h1
      simp [PyTraceFunction, h]
    · subst h1
      cases function <;> simp [PyTraceFunction, h]
  · intro fn fl h1 h2
    subst h1
    subst h2
    simp [PyTraceFunction, h]

/-- Witness for C9: a failed decode and a successful pair of decodes. -/
theorem claimC9_call_decode_witness :
    PyTraceFunction egLineOf egStActive 7 TraceEvent.call none (some egFl) =
      (-1, egStActive) ∧
    PyTraceFunction egLineOf egStActive 7 TraceEvent.call (some egFn) (some egFl) =
      (0, { egStActive with pst := (egStActive.pst.pushPythonFrame 7 egFn egFl
              (getCurrentPythonLineNumber egLineOf egStActive.pst)) }) :=
  ⟨(claimC9_call_decode egLineOf egStActive 7 none (some egFl) rfl).1 (Or.inl rfl),
   (claimC9_call_decode egLineOf egStActive 7 (some egFn) (some egFl) rfl).2
     egFn egFl rfl rfl⟩

/-- C2: pop on a non-empty shadow stack removes the top, counts a pending
pop exactly when the removed frame was emitted, and flushes pending pops
when the stack drains; pop on an empty or absent stack clears the entry
frame and changes nothing else. -/
theorem claimC2_pop_behaviour (s : St) (h : s.oracle = []) :
    (∀ top rest, s.pst.d_stack = some (top :: rest) →
      (popPythonFrame s).pst.d_stack = some rest ∧
      (popPythonFrame s).pst.d_entry_frame = s.pst.d_entry_frame ∧
      (rest ≠ [] →
        popPythonFrame s =
          { s with pst := { s.pst with
              d_num_pending_pops :=
                s.pst.d_num_pending_pops + (if top.emitted then 1 else 0),
              d_stack := some rest } }) ∧
      (rest = [] →
        (popPythonFrame s).pst.d_num_pending_pops = 0 ∧
        (popPythonFrame s).log =
          s.log ++ popRun s.tid
            (s.pst.d_num_pending_pops + (if top.emitted then 1 else 0)))) ∧
    ((s.pst.d_stack = none ∨ s.pst.d_stack = some []) →
      popPythonFrame s = { s with pst := { s.pst with d_entry_frame := none } }) := by
  constructor
  · intro top rest hst
    unfold popPythonFrame
    rw [hst]
    dsimp only
    by_cases hr : rest = []
    · subst hr
      simp only [List.isEmpty_nil, if_true]
      refine ⟨?_, ?_, ?_, ?_⟩
      · rw [emitPendingPops_pst]
      · rw [emitPendingPops_pst]
      · intro hne
        exact absurd rfl hne
      · intro _
        refine ⟨?_, ?_⟩
        · rw [emitPendingPops_pst]
        · exact emitPendingPops_log_ok _ h
    · have hre : rest.isEmpty = false := by
        simp [hr]
      simp only [hre, if_false]
      exact ⟨rfl, rfl, fun _ => rfl, fun he => absurd he hr⟩
  · intro hcase
    unfold popPythonFrame
    rcases hcase with h1 | h1 <;> rw [h1]

/-- Witness for C2: popping the emitted top of a two-frame stack counts one
more pending pop and removes the top, touching nothing else. -/
theorem claimC2_pop_behaviour_witness :
    (popPythonFrame egStPop).pst.d_stack = some [egFrameB] ∧
    popPythonFrame egStPop =
      { egStPop with pst := { egStPop.pst with
          d_num_pending_pops :=
            egStPop.pst.d_num_pending_pops + (if egFrameA.emitted then 1 else 0),
          d_stack := some [egFrameB] } } := by
  have h := (claimC2_pop_behaviour egStPop rfl).1 egFrameA [egFrameB] rfl
  exact ⟨h.1, h.2.2.1 (by decide)⟩

/-- C6: with a functioning writer, flushing the pending-pop counter n
writes a run of `FRAME_POP` records, each popping at most 255 frames,
totalling exactly n, and zeroes the counter; for n = 0 nothing is
written. -/
theorem claimC6_flush_pending_pops (s : St) (h : s.oracle = []) :
    ∃ Δ, (emitPendingPops s).log = s.log ++ Δ ∧
      (∀ r ∈ Δ, popRec r = true ∧ popCount r ≤ 255) ∧
      sumPops Δ = s.pst.d_num_pending_pops ∧
      (emitPendingPops s).pst.d_num_pending_pops = 0 ∧
      (s.pst.d_num_pending_pops = 0 → Δ = []) := by
  refine ⟨popRun s.tid s.pst.d_num_pending_pops, ?_, ?_, ?_, ?_, ?_⟩
  · rw [emitPendingPops_ok s h]
  · exact fun r hr => popRun_mem _ _ r hr
  · exact popRun_sum _ _
  · rw [emitPendingPops_pst]
  · intro h0
    rw [h0]
    exact popRun_zero _

/-- Witness for C6 at 600 pending pops (a 255/255/90 run). -/
theorem claimC6_flush_pending_pops_witness :
    ∃ Δ, (emitPendingPops egStPops).log = egStPops.log ++ Δ ∧
      (∀ r ∈ Δ, popRec r = true ∧ popCount r ≤ 255) ∧
      sumPops Δ = egStPops.pst.d_num_pending_pops ∧
      (emitPendingPops egStPops).pst.d_num_pending_pops = 0 ∧
      (egStPops.pst.d_num_pending_pops = 0 → Δ = []) :=
  claimC6_flush_pending_pops egStPops rfl

/-- C10: reset clears the shadow stack and sets the entry frame but leaves
the pending-pop counter untouched, so pops pending at the reset are still
flushed, in full, by the next flush. -/
theorem claimC10_reset_keeps_pending_pops (s : St) (cf : Option Nat)
    (h : s.oracle = []) :
    (s.pst.reset cf).d_num_pending_pops = s.pst.d_num_pending_pops ∧
    (s.pst.reset cf).d_entry_frame = cf ∧
    ((s.pst.reset cf).d_stack = none ∨ (s.pst.reset cf).d_stack = some []) ∧
    (emitPendingPops { s with pst := s.pst.reset cf }).log =
      s.log ++ popRun s.tid s.pst.d_num_pending_pops ∧
    sumPops (popRun s.tid s.pst.d_num_pending_pops) = s.pst.d_num_pending_pops := by
  refine ⟨rfl, rfl, ?_, ?_, popRun_sum _ _⟩
  · unfold PythonStackTracker.reset
    cases s.pst.d_stack <;> simp
  · exact emitPendingPops_log_ok _ h

/-- Witness for C10: a reset at 2 pending pops still flushes a
`FRAME_POP(2)` afterwards. -/
theorem claimC10_reset_keeps_pending_pops_witness :
    (egStReset.pst.reset (some 1)).d_num_pending_pops =
      egStReset.pst.d_num_pending_pops ∧
    (egStReset.pst.reset (some 1)).d_entry_frame = some 1 ∧
    ((egStReset.pst.reset (some 1)).d_stack = none ∨
      (egStReset.pst.reset (some 1)).d_stack = some []) ∧
    (emitPendingPops { egStReset with pst := egStReset.pst.reset (some 1) }).log =
      egStReset.log ++ popRun egStReset.tid egStReset.pst.d_num_pending_pops ∧
    sumPops (popRun egStReset.tid egStReset.pst.d_num_pending_pops) =
      egStReset.pst.d_num_pending_pops :=
  claimC10_reset_keeps_pending_pops egStReset (some 1) rfl

/-- C5: every gated allocation or deallocation event appends to the log a
run of `FRAME_POP` records, then a run of `FRAME_PUSH` (and interleaved
`FRAME_INDEX`) records, then (for allocations) `NATIVE_TRACE_INDEX`
records, then the `ALLOCATION` record: pops always precede pushes, and both
precede the event's allocation record. -/
theorem claimC5_pops_before_pushes (lineOf : Nat → Int) (fillOk : Bool)
    (emits : List (Nat × Nat)) (tix : Nat) (s : St) (ptr size func : Nat)
    (h1 : s.inTracker = false) (h2 : s.active = true) :
    (∃ Δpop Δpush Δnat Δalloc,
      (trackAllocationImpl lineOf fillOk emits tix s ptr size func).log =
        s.log ++ Δpop ++ Δpush ++ Δnat ++ Δalloc ∧
      (∀ r ∈ Δpop, popRec r = true) ∧
      (∀ r ∈ Δpush, pushRec r = true) ∧
      (∀ r ∈ Δnat, nativeRec r = true) ∧
      (∀ r ∈ Δalloc, allocRec r = true)) ∧
    (∃ Δpop Δpush Δalloc,
      (trackDeallocationImpl lineOf s ptr size func).log =
        s.log ++ Δpop ++ Δpush ++ Δalloc ∧
      (∀ r ∈ Δpop, popRec r = true) ∧
      (∀ r ∈ Δpush, pushRec r = true) ∧
      (∀ r ∈ Δalloc, allocRec r = true)) := by
  constructor
  · unfold trackAllocationImpl
    rw [if_neg (by simp [h1, h2])]
    dsimp only
    obtain ⟨Δ1, e1, a1⟩ := emitPendingPops_logDelta { s with inTracker := true }
    obtain ⟨Δ2, e2, a2⟩ :=
      emitPendingPushes_logDelta (emitPendingPops { s with inTracker := true })
    by_cases hn : ((emitPendingPushes
        (emitPendingPops { s with inTracker := true })).d_unwind_native_frames
        && fillOk) = true
    · rw [if_pos hn]
      dsimp only
      obtain ⟨Δ3, e3, a3⟩ := writeNativeEmits_logDelta emits
        (emitPendingPushes (emitPendingPops { s with inTracker := true }))
      obtain ⟨Δ4, e4, a4⟩ := writeRecord_orDeactivate_log
        (writeNativeEmits
          (emitPendingPushes (emitPendingPops { s with inTracker := true })) emits)
        (Record.allocation
          (writeNativeEmits
            (emitPendingPushes (emitPendingPops { s with inTracker := true }))
            emits).tid
          ptr size func
          (getCurrentPythonLineNumber lineOf s.pst) tix)
      refine ⟨Δ1, Δ2, Δ3, Δ4, ?_, a1, a2, a3, ?_⟩
      · rw [e4, e3, e2, e1]
      · intro x hx
        rw [a4 x hx]
        rfl
    · rw [if_neg hn]
      dsimp only
      obtain ⟨Δ4, e4, a4⟩ := writeRecord_orDeactivate_log
        (emitPendingPushes (emitPendingPops { s with inTracker := true }))
        (Record.allocation
          (emitPendingPushes (emitPendingPops { s with inTracker := true })).tid
          ptr size func
          (getCurrentPythonLineNumber lineOf s.pst) 0)
      refine ⟨Δ1, Δ2, [], Δ4, ?_, a1, a2, by simp, ?_⟩
      · rw [e4, e2, e1]
        simp [List.append_assoc]
      · intro x hx
        rw [a4 x hx]
        rfl
  · unfold trackDeallocationImpl
    rw [if_neg (by simp [h1, h2])]
    dsimp only
    obtain ⟨Δ1, e1, a1⟩ := emitPendingPops_logDelta { s with inTracker := true }
    obtain ⟨Δ2, e2, a2⟩ :=
      emitPendingPushes_logDelta (emitPendingPops { s with inTracker := true })
    obtain ⟨Δ4, e4, a4⟩ := writeRecord_orDeactivate_log
      (emitPendingPushes (emitPendingPops { s with inTracker := true }))
      (Record.allocation
        (emitPendingPushes (emitPendingPops { s with inTracker := true })).tid
        ptr size func
        (getCurrentPythonLineNumber lineOf s.pst) 0)
    refine ⟨Δ1, Δ2, Δ4, ?_, a1, a2, ?_⟩
    · rw [e4, e2, e1]
    · intro x hx
      rw [a4 x hx]
      rfl

/-- Witness for C5 at an active, unguarded state with native unwinding
disabled in configuration and a nonempty pending state. -/
theorem claimC5_pops_before_pushes_witness :
    (∃ Δpop Δpush Δnat Δalloc,
      (trackAllocationImpl egLineOf true [(11, 0)] 4 egStPop 170 16 0).log =
        egStPop.log ++ Δpop ++ Δpush ++ Δnat ++ Δalloc ∧
      (∀ r ∈ Δpop, popRec r = true) ∧
      (∀ r ∈ Δpush, pushRec r = true) ∧
      (∀ r ∈ Δnat, nativeRec r = true) ∧
      (∀ r ∈ Δalloc, allocRec r = true)) ∧
    (∃ Δpop Δpush Δalloc,
      (trackDeallocationImpl egLineOf egStPop 170 16 0).log =
        egStPop.log ++ Δpop ++ Δpush ++ Δalloc ∧
      (∀ r ∈ Δpop, popRec r = true) ∧
      (∀ r ∈ Δpush, pushRec r = true) ∧
      (∀ r ∈ Δalloc, allocRec r = true)) :=
  claimC5_pops_before_pushes egLineOf true [(11, 0)] 4 egStPop 170 16 0 rfl rfl

/-- C1 counterexample: constructed with `native_traces = false`, the tracker
writes the header and then an allocation record with no `MEMORY_MAP_START`
(and no segment records) ever appearing: the claimed initial module map is
missing for this configuration. -/
theorem claimC1_counterexample :
    (trackerConstruct egExe cexModules none cexStNoNative).isSome = true ∧
    cexStream = [Record.header false, Record.allocation 7 170 16 0 0 0] ∧
    Record.memoryMapStart ∉ cexStream := by
  have hstream : cexStream = [Record.header false, Record.allocation 7 170 16 0 0 0] := by
    show (trackAllocationImpl egLineOf false [] 0 cexConstructed 170 16 0).log = _
    unfold trackAllocationImpl
    rw [if_neg (by decide)]
    dsimp only
    rw [emitPendingPops_zero _ (by decide)]
    decide
  refine ⟨rfl, hstream, ?_⟩
  rw [hstream]
  decide

/-- C1, amended: when native traces are enabled, construction writes the
non-terminal header and then the module map — `MEMORY_MAP_START` followed
by only `SEGMENT_HEADER`/`SEGMENT` records — before any other record kind
(stated with a functioning writer and an empty output). -/
theorem claimC1_header_then_module_map (exe : String) (modules : List ModuleInfo)
    (entry : Option Nat) (s : St) (hn : s.d_unwind_native_frames = true)
    (ho : s.oracle = []) (hl : s.log = []) :
    ∃ s' Δ, trackerConstruct exe modules entry s = some s' ∧
      s'.log = Record.header false :: Record.memoryMapStart :: Δ ∧
      ∀ r ∈ Δ, segRec r = true := by
  have hw1 : (writeRecord s (Record.header false)).1 = true := by
    rw [writeRecord_fst, ho]
    rfl
  have hu : (writeRecord s (Record.header false)).2.d_unwind_native_frames = true := hn
  have hw2 : (writeRecord (writeRecord s (Record.header false)).2
      Record.memoryMapStart).1 = true := by
    simp [writeRecord, ho]
  unfold trackerConstruct
  dsimp only
  rw [if_neg (by simp [hw1])]
  unfold updateModuleCacheImpl
  rw [if_neg (by simp [hu])]
  dsimp only
  rw [if_pos hw2]
  obtain ⟨Δ, hΔ, ha⟩ := dlIteratePhdr_logDelta modules exe
    (writeRecord (writeRecord s (Record.header false)).2 Record.memoryMapStart).2
  refine ⟨_, Δ, rfl, ?_, ha⟩
  dsimp only
  rw [hΔ, writeRecord_log_true _ _ hw2, writeRecord_log_true _ _ hw1, hl]
  simp

/-- Witness for the amended C1 at a concrete module list. -/
theorem claimC1_header_then_module_map_witness :
    ∃ s' Δ, trackerConstruct egExe cexModules none cexStNative = some s' ∧
      s'.log = Record.header false :: Record.memoryMapStart :: Δ ∧
      ∀ r ∈ Δ, segRec r = true :=
  claimC1_header_then_module_map egExe cexModules none cexStNative rfl rfl rfl

end Pensieve
